import Mathlib

/-!
# Verification of the decentralized ETL pipeline gist

A shallow embedding of `src/decentralized_etl_gist.py` and proofs of the
frozen claims about it.

Modelling conventions:

* Python ints are `Int` (arbitrary precision, no overflow).
* An event record (`logline`) is an open dict of which the program reads at
  most the fields `type, ticker, amt, acct_id, ts, price`; it is embedded as a
  structure of `Option`-typed fields, `none` meaning the key is absent.
* A Python `dict`/`defaultdict(int)` from ticker to balance is embedded as an
  insertion-ordered association list `Dict := List (String × Int)` with unique
  keys; lookup defaults absent keys to `0` (the `defaultdict(int)` behaviour),
  and `d[k] += v` keeps an existing key in place and appends a new key at the
  end, exactly as CPython dicts order their keys.
* Exceptions (`KeyError` on a missing field — the spec's `MissingFieldError` —
  and `TypeError` from calling a function with the wrong number of arguments)
  are embedded with `Except PyError`.
* The pipeline's generator `run` is embedded eagerly: the list of effects it
  returns is the sequence of values the generator yields, in yield order, and
  an `Except.error` means the generator raises before finishing.
* The pipeline instance's mutable scratch attribute `T_count` is embedded as
  explicitly threaded state of type `Option Int`; `none` means the attribute
  is not set on the instance (`getattr(state, 'T_count', 0)` then reads `0`).
-/

namespace EtlGist

/-- Python exceptions the embedded code can raise. `missingField f` models the
`KeyError` raised when a logline lacks key `f` (the spec's `MissingFieldError`);
`typeError` models `TypeError` (wrong-arity call or otherwise). -/
inductive PyError where
  | missingField (field : String)
  | typeError
  | attributeError
  deriving DecidableEq, Repr

/-- `Eff = namedtuple('Eff', ('ticker', 'amt', 'acct_id', 'ts'))`. -/
structure Eff where
  ticker : String
  amt : Int
  acct_id : Int
  ts : Int
  deriving DecidableEq, Repr

/-- An event record: an open key-value dict of which the program reads at most
these fields. `none` means the key is absent from the dict. -/
structure Logline where
  type : Option String := none
  ticker : Option String := none
  amt : Option Int := none
  acct_id : Option Int := none
  ts : Option Int := none
  price : Option Int := none
  deriving DecidableEq, Repr

/-- `logline[field]`: reading a key of a dict raises `KeyError` when absent. -/
def getField (v : Option α) (field : String) : Except PyError α :=
  match v with
  | some x => Except.ok x
  | none => Except.error (PyError.missingField field)

/-- `get_common_fields(logline)`: reads `ticker`, `amt`, `acct_id`, `ts` in
that order, raising on the first absent one. -/
def get_common_fields (l : Logline) : Except PyError (String × Int × Int × Int) := do
  let ticker ← getField l.ticker "ticker"
  let amt ← getField l.amt "amt"
  let acct_id ← getField l.acct_id "acct_id"
  let ts ← getField l.ts "ts"
  return (ticker, amt, acct_id, ts)

/-- The body of the generator `txn_handler_stateless(logline)` (handlers/S.py):
the returned list is the sequence of its `yield`s. -/
def txn_handler_stateless (l : Logline) : Except PyError (List Eff) := do
  let (ticker, amt, acct_id, ts) ← get_common_fields l
  let ty ← getField l.type "type"
  let dir_ : Int := if ty = "buy" then 1 else -1
  let price ← getField l.price "price"
  return [⟨ticker, dir_ * amt, acct_id, ts⟩,
          ⟨"CASH", -1 * dir_ * amt * price, acct_id, ts⟩]

/-- The body of the generator `T_handler_stateful(state, logline)`
(handlers/T.py). Its first argument is the pipeline's scratch `T_count`
attribute (`none` when the attribute is unset; `getattr(state, 'T_count', 0)`
then yields `0`); the second component of the result is the attribute's value
after the body ran (`state.T_count = T_count + 1`). -/
def T_handler_stateful (state : Option Int) (l : Logline) :
    Except PyError (List Eff × Option Int) := do
  let (ticker, amt, acct_id, ts) ← get_common_fields l
  let T_count := state.getD 0
  return ([⟨ticker, max T_count amt, acct_id, ts⟩], some (T_count + 1))

/-- A registered handler, as Python sees it: a function object whose calling
convention is fixed by its parameter count. `stateless` handlers take one
parameter (the logline); `stateful` handlers take two (the pipeline and the
logline). All handlers in the source are generator functions, so calling one
only binds arguments — the body runs when the result is iterated. -/
inductive Handler where
  | stateless (f : Logline → Except PyError (List Eff))
  | stateful (f : Option Int → Logline → Except PyError (List Eff × Option Int))

/-- The number of parameters the handler function declares. -/
def Handler.params : Handler → Nat
  | .stateless _ => 1
  | .stateful _ => 2

/-- `handler(self, logline)`: a two-argument call. The outer `Except` is the
call itself — it raises `TypeError` when the handler does not take two
parameters (argument binding fails before any body runs, because handlers are
generator functions). The inner `Except` is what iterating the returned
generator produces. -/
def pyCallTwo (h : Handler) (sc : Option Int) (l : Logline) :
    Except PyError (Except PyError (List Eff × Option Int)) :=
  match h with
  | .stateful f => Except.ok (f sc l)
  | .stateless _ => Except.error PyError.typeError

/-- `handler(logline)`: a one-argument call, same reading as `pyCallTwo`.
A stateless handler leaves the pipeline's scratch state unchanged. -/
def pyCallOne (h : Handler) (sc : Option Int) (l : Logline) :
    Except PyError (Except PyError (List Eff × Option Int)) :=
  match h with
  | .stateless f => Except.ok ((f l).map (fun effs => (effs, sc)))
  | .stateful _ => Except.error PyError.typeError

/-- Lines 50–56 of `EffPipeline.run`: `try: effects = handler(self, logline)
except TypeError: effects = handler(logline)` followed by iterating `effects`.
Only a `TypeError` raised by the call itself (arity mismatch) is caught;
errors raised while iterating the generator propagate. -/
def invoke (h : Handler) (sc : Option Int) (l : Logline) :
    Except PyError (List Eff × Option Int) :=
  match pyCallTwo h sc l with
  | Except.ok gen => gen
  | Except.error _ =>
    match pyCallOne h sc l with
    | Except.ok gen => gen
    | Except.error e => Except.error e

/-- The argument counts of the call attempts `invoke` performs on `h`, in
order: it always tries the two-argument call first and retries with one
argument exactly when that call raises `TypeError`. -/
def callAttempts (h : Handler) (sc : Option Int) (l : Logline) : List Nat :=
  match pyCallTwo h sc l with
  | Except.ok _ => [2]
  | Except.error _ => [2, 1]

/-- `EffPipeline._handlers`: a mapping from event type to the list of handlers
registered for it, in registration order (`handle` appends). -/
abbrev Registry := List (String × List Handler)

/-- `self._handlers.get(event_type, [])`. -/
def lookupReg : Registry → String → List Handler
  | [], _ => []
  | (t, hs) :: rest, ty => if t = ty then hs else lookupReg rest ty

/-- The registry built by the decorators in the source: `txn_handler_stateless`
registered for `'buy'` and `'sell'`, `T_handler_stateful` for `'T'`. -/
def realRegistry : Registry :=
  [("buy", [Handler.stateless txn_handler_stateless]),
   ("sell", [Handler.stateless txn_handler_stateless]),
   ("T", [Handler.stateful T_handler_stateful])]

/-- The inner loop of `EffPipeline.run` for one logline: invoke each handler in
list order and yield every effect it produces before moving to the next
handler. The scratch state is threaded through the invocations. -/
def runHandlers : List Handler → Option Int → Logline →
    Except PyError (List Eff × Option Int)
  | [], sc, _ => Except.ok ([], sc)
  | h :: hs, sc, l => do
    let (effs, sc') ← invoke h sc l
    let (rest, sc'') ← runHandlers hs sc' l
    return (effs ++ rest, sc'')

/-- `EffPipeline.run(self, loglines)`: for each logline in order, read its
`type` (KeyError if absent), look up the handlers registered for that type
(empty list, not an error, for unknown types), and yield the effects of each
handler in registration order. -/
def run (reg : Registry) : Option Int → List Logline →
    Except PyError (List Eff × Option Int)
  | sc, [] => Except.ok ([], sc)
  | sc, l :: rest => do
    let ty ← getField l.type "type"
    let (effs, sc') ← runHandlers (lookupReg reg ty) sc l
    let (effs2, sc'') ← run reg sc' rest
    return (effs ++ effs2, sc'')

/-- A Python `dict`/`defaultdict(int)` from ticker to balance: an
insertion-ordered association list with unique keys. -/
abbrev Dict := List (String × Int)

/-- Lookup with the `defaultdict(int)` default: an absent key reads as `0`. -/
def dictLookup : Dict → String → Int
  | [], _ => 0
  | (k', v) :: rest, k => if k' = k then v else dictLookup rest k

/-- `d[k] += a` on a `defaultdict(int)`: an existing key keeps its position,
an absent key is appended at the end (with prior value `0`). -/
def dictAdd : Dict → String → Int → Dict
  | [], k, a => [(k, a)]
  | (k', v) :: rest, k, a =>
    if k' = k then (k', v + a) :: rest else (k', v) :: dictAdd rest k a

/-- `d[k] = v`: an existing key keeps its position, an absent key is appended. -/
def dictSet : Dict → String → Int → Dict
  | [], k, v => [(k, v)]
  | (k', w) :: rest, k, v =>
    if k' = k then (k', v) :: rest else (k', w) :: dictSet rest k v

/-- `d.update(src)`: set each key of `src` into `d`, in `src`'s order. -/
def dictUpdate (d : Dict) (src : Dict) : Dict :=
  src.foldl (fun acc p => dictSet acc p.1 p.2) d

/-- The keys of the dict, in insertion order. -/
def dictKeys (d : Dict) : List String := d.map Prod.fst

/-- `run_acct_effs(effs, state=None)` (eff_runner.py): fold each effect's `amt`
into the running balance of its ticker, starting from a fresh
`defaultdict(int)` when no state is given. -/
def run_acct_effs (effs : List Eff) (state : Option Dict := none) : Dict :=
  effs.foldl (fun st e => dictAdd st e.ticker e.amt) (state.getD [])

/-- `AccountState` (account_state.py): `T_count` plus the positions dict. -/
structure AccountState where
  T_count : Int
  posns : Dict
  deriving DecidableEq, Repr

/-- `AccountState.__init__`: the `posns` argument is copied into a fresh
`defaultdict(int)` (`posns_ = defaultdict(int); posns_.update(posns)`). -/
def AccountState.init (T_count : Int := 0) (posns : Dict := []) : AccountState :=
  ⟨T_count, dictUpdate [] posns⟩

/-- One driver cycle for one account (the `__main__` loop body):
`update_pipeline_w_acct_state` copies `acct.T_count` onto the fresh pipeline,
the pipeline runs over the account's loglines, `run_acct_effs` folds the
effects into `acct.posns`, and `update_acct_w_pipeline_state` copies the
pipeline's `T_count` attribute back (an `AttributeError` if it were unset). -/
def driverCycle (acct : AccountState) (loglines : List Logline) :
    Except PyError AccountState := do
  let (effs, sc) ← run realRegistry (some acct.T_count) loglines
  let posns' := run_acct_effs effs (some acct.posns)
  match sc with
  | some tc => return ⟨tc, posns'⟩
  | none => Except.error PyError.attributeError

/-! ## Specification-side expressions used to state the claims -/

/-- The sum of the `amt` fields of the effects whose ticker is `t`, in order. -/
def sumAmts (t : String) : List Eff → Int
  | [] => 0
  | e :: rest => (if e.ticker = t then e.amt else 0) + sumAmts t rest

/-- The field values of one `T`-type event. -/
structure TRecord where
  ticker : String
  amt : Int
  acct_id : Int
  ts : Int
  deriving DecidableEq, Repr

/-- The logline of a `T`-type event with all common fields present. -/
def mkT (r : TRecord) : Logline :=
  { type := some "T", ticker := some r.ticker, amt := some r.amt,
    acct_id := some r.acct_id, ts := some r.ts }

/-- The effects the spec predicts for a run of consecutive `T` events starting
at counter `c0`: the `i`-th event (0-based) clears `max (c0 + i) amt_i`. -/
def expectedTEffs (c0 : Int) : List TRecord → List Eff
  | [] => []
  | r :: rest => ⟨r.ticker, max c0 r.amt, r.acct_id, r.ts⟩ :: expectedTEffs (c0 + 1) rest

/-- The per-event, per-handler effect blocks of a pipeline run, before any
flattening: each inner `List (List Eff)` holds, for one event, one block per
matching handler in registration order, and the blocks are listed in event
order. The scratch state is threaded exactly as in `run`. -/
def handlerBlocks : List Handler → Option Int → Logline →
    Except PyError (List (List Eff) × Option Int)
  | [], sc, _ => Except.ok ([], sc)
  | h :: hs, sc, l => do
    let (effs, sc') ← invoke h sc l
    let (bs, sc'') ← handlerBlocks hs sc' l
    return (effs :: bs, sc'')

/-- Per-event blocks of per-handler blocks for a whole run; see
`handlerBlocks`. -/
def eventBlocks (reg : Registry) : Option Int → List Logline →
    Except PyError (List (List (List Eff)) × Option Int)
  | sc, [] => Except.ok ([], sc)
  | sc, l :: rest => do
    let ty ← getField l.type "type"
    let (bs, sc') ← handlerBlocks (lookupReg reg ty) sc l
    let (bss, sc'') ← eventBlocks reg sc' rest
    return (bs :: bss, sc'')

/-! ## A heap model for `AccountState.__init__`'s default argument

In Python, the default value of `posns=dict()` is a single dict object created
once at function-definition time and shared by every zero-argument
construction. `__init__` copies it (`posns_ = defaultdict(int);
posns_.update(posns); self.posns = posns_`) into a newly allocated dict. To
settle whether mutating one instance's `posns` can leak into later
constructions, dicts live in an explicit heap and are referred to by index. -/

/-- One constructed `AccountState` instance: its `T_count` and the heap
reference of its `posns` dict. -/
structure PyAcct where
  T_count : Int
  posnsRef : Nat
  deriving DecidableEq, Repr

/-- The heap: all allocated dict objects (index = reference) and all
constructed `AccountState` instances, in construction order. Index `0` is the
dict created once by the default argument `posns=dict()`. -/
structure Mem where
  dicts : List Dict
  accts : List PyAcct
  deriving DecidableEq, Repr

/-- The heap at module load: only the default-argument dict, still empty. -/
def mem0 : Mem := ⟨[[]], []⟩

/-- `AccountState.__init__(T_count, posns)` with `posns` the dict at heap
reference `argRef`: allocate a fresh `defaultdict(int)`, copy the argument's
current contents into it, and record the instance pointing at the fresh dict. -/
def constructAcct (m : Mem) (tc : Int) (argRef : Nat) : Mem :=
  let fresh := dictUpdate [] (m.dicts.getD argRef [])
  ⟨m.dicts ++ [fresh], m.accts ++ [⟨tc, m.dicts.length⟩]⟩

/-- The operations client code performs on account states. -/
inductive AcctOp where
  /-- `AccountState()`: construct with the shared default-argument dict. -/
  | constructDefault
  /-- `AccountState(tc, ps)` with a freshly written dict literal `ps`. -/
  | construct (tc : Int) (ps : Dict)
  /-- `accts[i].posns[k] += a`: mutate instance `i`'s positions in place. -/
  | mutate (i : Nat) (k : String) (a : Int)

/-- One step of the heap model. -/
def stepOp (m : Mem) : AcctOp → Mem
  | AcctOp.constructDefault => constructAcct m 0 0
  | AcctOp.construct tc ps => constructAcct ⟨m.dicts ++ [ps], m.accts⟩ tc m.dicts.length
  | AcctOp.mutate i k a =>
    match m.accts.get? i with
    | some acct =>
      ⟨m.dicts.set acct.posnsRef (dictAdd (m.dicts.getD acct.posnsRef []) k a), m.accts⟩
    | none => m

/-- Run a sequence of operations from the module-load heap. -/
def execOps (ops : List AcctOp) : Mem := ops.foldl stepOp mem0

/-- The heap invariant: the default-argument dict is still empty, and no
instance's `posns` aliases it. -/
def MemInv (m : Mem) : Prop :=
  m.dicts.get? 0 = some [] ∧ ∀ a ∈ m.accts, 1 ≤ a.posnsRef

/-! ## Concrete inputs from the source's `__main__` driver -/

/-- Account 1's initial state in the driver:
`AccountState(T_count=4, posns={"AAPL": 14, "CASH": 10})`. -/
def acct1Start : AccountState := AccountState.init 4 [("AAPL", 14), ("CASH", 10)]

/-- Account 1's loglines in the driver, in timestamp order. -/
def acct1Loglines : List Logline :=
  [{ type := some "buy", ticker := some "GOOG", amt := some 4, acct_id := some 1,
     ts := some 1, price := some 640 },
   { type := some "T", ticker := some "AAPL", amt := some 5, acct_id := some 1, ts := some 2 },
   { type := some "T", ticker := some "AAPL", amt := some 30, acct_id := some 1, ts := some 3 },
   { type := some "T", ticker := some "AAPL", amt := some 4, acct_id := some 1, ts := some 4 }]

/-! ## Helper lemmas -/

theorem dictLookup_dictAdd (d : Dict) (k : String) (a : Int) (t : String) :
    dictLookup (dictAdd d k a) t = dictLookup d t + (if k = t then a else 0) := by
  induction d with
  | nil =>
    by_cases h : k = t <;> simp [dictAdd, dictLookup, h]
  | cons p rest ih =>
    obtain ⟨k', v⟩ := p
    by_cases hk : k' = k
    · subst hk
      by_cases ht : k' = t <;> simp [dictAdd, dictLookup, ht]
    · by_cases ht : k' = t
      · subst ht
        have : ¬ k = k' := fun h => hk h.symm
        simp [dictAdd, dictLookup, hk, this]
      · simp [dictAdd, dictLookup, hk, ht, ih]

theorem mem_dictKeys_dictAdd (d : Dict) (k : String) (a : Int) (t : String)
    (h : t ∈ dictKeys d) : t ∈ dictKeys (dictAdd d k a) := by
  induction d with
  | nil => simp [dictKeys] at h
  | cons p rest ih =>
    obtain ⟨k', v⟩ := p
    by_cases hk : k' = k
    · simpa [dictAdd, hk, dictKeys] using h
    · simp [dictKeys] at h
      rcases h with h | h
      · simp [dictAdd, hk, dictKeys, h]
      · simp [dictAdd, hk, dictKeys]
        exact Or.inr (by simpa [dictKeys] using ih (by simpa [dictKeys] using h))

theorem dictLookup_fold (effs : List Eff) (d : Dict) (t : String) :
    dictLookup (effs.foldl (fun st e => dictAdd st e.ticker e.amt) d) t =
      dictLookup d t + sumAmts t effs := by
  induction effs generalizing d with
  | nil => simp [sumAmts]
  | cons e rest ih =>
    simp only [List.foldl_cons, sumAmts, ih, dictLookup_dictAdd]
    ring

theorem mem_dictKeys_fold (effs : List Eff) (d : Dict) (t : String)
    (h : t ∈ dictKeys d) :
    t ∈ dictKeys (effs.foldl (fun st e => dictAdd st e.ticker e.amt) d) := by
  induction effs generalizing d with
  | nil => simpa using h
  | cons e rest ih =>
    exact ih _ (mem_dictKeys_dictAdd _ _ _ _ h)

theorem sumAmts_eq_zero (t : String) (effs : List Eff)
    (h : ∀ e ∈ effs, e.ticker ≠ t) : sumAmts t effs = 0 := by
  induction effs with
  | nil => rfl
  | cons e rest ih =>
    have he : e.ticker ≠ t := h e (by simp)
    simp [sumAmts, he, ih fun e' h' => h e' (by simp [h'])]

/-! ## The claims -/

/-- C2. For every event record of type `buy` (direction `+1`) or `sell`
(direction `-1`) with fields `ticker, amt, acct_id, ts, price`, the stateless
transaction handler emits exactly two effects, in order:
`(ticker, direction*amt, acct_id, ts)` then
`("CASH", -direction*amt*price, acct_id, ts)`. -/
theorem txn_handler_emits_two_effects (isBuy : Bool) (ticker : String)
    (amt acct_id ts price : Int) :
    txn_handler_stateless
      { type := some (if isBuy then "buy" else "sell"), ticker := some ticker,
        amt := some amt, acct_id := some acct_id, ts := some ts,
        price := some price } =
      Except.ok
        [⟨ticker, (if isBuy then 1 else -1) * amt, acct_id, ts⟩,
         ⟨"CASH", -(if isBuy then (1 : Int) else -1) * amt * price, acct_id, ts⟩] := by
  cases isBuy <;> rfl

/-- C3. For every effect sequence and every seed mapping, each ticker's balance
in the folded result equals its balance in the seed (absent keys reading `0`)
plus the sum of the `amt` fields of the effects with that ticker; with no seed,
the fold starts from the all-zero (empty) mapping. -/
theorem run_acct_effs_balances (effs : List Eff) (seed : Dict) (t : String) :
    dictLookup (run_acct_effs effs (some seed)) t =
      dictLookup seed t + sumAmts t effs ∧
    run_acct_effs effs = run_acct_effs effs (some []) := by
  exact ⟨dictLookup_fold effs seed t, rfl⟩

/-- C4. Folding is incremental over concatenation: folding `effs` from the
result of folding `effs2` from a seed equals folding `effs2 ++ effs` from that
seed. -/
theorem run_acct_effs_incremental (effs effs2 : List Eff) (seed : Dict) :
    run_acct_effs effs (some (run_acct_effs effs2 (some seed))) =
      run_acct_effs (effs2 ++ effs) (some seed) := by
  simp [run_acct_effs, List.foldl_append]

/-- C10. The fold retains every key of the seed, and every ticker that no
effect touches keeps exactly its seed balance. -/
theorem run_acct_effs_frame (effs : List Eff) (seed : Dict) (t : String) :
    (t ∈ dictKeys seed → t ∈ dictKeys (run_acct_effs effs (some seed))) ∧
    ((∀ e ∈ effs, e.ticker ≠ t) →
      dictLookup (run_acct_effs effs (some seed)) t = dictLookup seed t) := by
  constructor
  · exact fun h => mem_dictKeys_fold effs seed t h
  · intro h
    have := dictLookup_fold effs seed t
    rw [sumAmts_eq_zero t effs h, add_zero] at this
    exact this

/-- Witness for C10 at a concrete input: seed `{"B": 2}`, one effect on `"A"`. -/
theorem run_acct_effs_frame_witness :
    ("B" ∈ dictKeys [("B", 2)] ∧ (∀ e ∈ [Eff.mk "A" 1 0 0], e.ticker ≠ "B")) ∧
    ("B" ∈ dictKeys (run_acct_effs [Eff.mk "A" 1 0 0] (some [("B", 2)])) ∧
     dictLookup (run_acct_effs [Eff.mk "A" 1 0 0] (some [("B", 2)])) "B" =
       dictLookup [("B", 2)] "B") :=
  ⟨⟨by decide, by decide⟩,
   (run_acct_effs_frame [Eff.mk "A" 1 0 0] [("B", 2)] "B").1 (by decide),
   (run_acct_effs_frame [Eff.mk "A" 1 0 0] [("B", 2)] "B").2 (by decide)⟩

/-- C8. End to end, from the driver's example: account 1 starts at
`T_count = 4`, `posns = {AAPL: 14, CASH: 10}`; after one driver cycle over
`[buy GOOG amt=4 price=640, T AAPL amt=5, T AAPL amt=30, T AAPL amt=4]` the
state is `T_count = 7`, `posns = {AAPL: 55, CASH: -2550, GOOG: 4}`. -/
theorem driver_example_account1 :
    driverCycle acct1Start acct1Loglines =
      Except.ok ⟨7, [("AAPL", 55), ("CASH", -2550), ("GOOG", 4)]⟩ := by
  rfl

theorem expectedTEffs_len (c0 : Int) (rs : List TRecord) :
    (expectedTEffs c0 rs).length = rs.length := by
  induction rs generalizing c0 with
  | nil => rfl
  | cons r rest ih => simp [expectedTEffs, ih]

theorem expectedTEffs_get (rs : List TRecord) : ∀ (c0 : Int) (i : Nat),
    (expectedTEffs c0 rs).get? i =
      (rs.get? i).map (fun r => Eff.mk r.ticker (max (c0 + i) r.amt) r.acct_id r.ts) := by
  induction rs with
  | nil => intro c0 i; simp [expectedTEffs]
  | cons r rest ih =>
    intro c0 i
    cases i with
    | zero => simp [expectedTEffs]
    | succ n =>
      have harith : c0 + 1 + (n : Int) = c0 + ((n + 1 : Nat) : Int) := by push_cast; ring
      simpa [expectedTEffs, harith] using ih (c0 + 1) n

theorem run_T_list (rs : List TRecord) : ∀ c0 : Int,
    run realRegistry (some c0) (rs.map mkT) =
      Except.ok (expectedTEffs c0 rs, some (c0 + rs.length)) := by
  induction rs with
  | nil => intro c0; simp [run, expectedTEffs]
  | cons r rest ih =>
    intro c0
    have h1 : run realRegistry (some c0) ((r :: rest).map mkT) =
        Except.bind (run realRegistry (some (c0 + 1)) (rest.map mkT))
          (fun p => Except.ok (Eff.mk r.ticker (max c0 r.amt) r.acct_id r.ts :: p.1, p.2)) :=
      rfl
    rw [h1, ih (c0 + 1)]
    simp [Except.bind, expectedTEffs]
    omega

/-- C1. Running the pipeline with counter `c0` over `n` consecutive `T` events
with amounts `a_1 .. a_n` emits exactly one effect per event; the `i`-th
(1-based) effect's amount is `max (c0 + i - 1) a_i` and it carries the `i`-th
event's ticker, `acct_id` and `ts`; the counter ends at `c0 + n`. -/
theorem T_handler_run_sequence (c0 : Int) (rs : List TRecord) :
    run realRegistry (some c0) (rs.map mkT) =
      Except.ok (expectedTEffs c0 rs, some (c0 + rs.length)) ∧
    (expectedTEffs c0 rs).length = rs.length ∧
    ∀ i : Nat, (expectedTEffs c0 rs).get? i =
      (rs.get? i).map (fun r => Eff.mk r.ticker (max (c0 + i) r.amt) r.acct_id r.ts) :=
  ⟨run_T_list rs c0, expectedTEffs_len c0 rs, fun i => expectedTEffs_get rs c0 i⟩

/-- C7, counterexample. The claim says the pipeline resolves a handler's
calling convention statically from its declared kind, making exactly one call
under that convention. It does not: dispatching the one-parameter (stateless)
`txn_handler_stateless` performs two call attempts, first a two-argument
(stateful-convention) trial call whose `TypeError` is caught, then the
one-argument call. -/
theorem dispatch_not_static_cex :
    ¬ callAttempts (Handler.stateless txn_handler_stateless) none {} =
        [(Handler.stateless txn_handler_stateless).params] := by
  simp [callAttempts, pyCallTwo, Handler.params]

/-- C7, amended. The pipeline resolves the calling convention by an
exception-driven trial: every handler is first called with two arguments, and
exactly the stateless (one-parameter) handlers are then re-called with one
argument, because their two-argument call raises `TypeError` at argument
binding. Since handlers are generator functions whose bodies only run on
iteration, this is extensionally the static dispatch on the declared parameter
count: each handler's body runs exactly once, under its own convention, and a
`TypeError` arising inside the body (`f l = Except.error typeError`) is
propagated, never triggering a re-invocation under the other convention. -/
theorem dispatch_trial_call (sc : Option Int) (l : Logline)
    (f : Logline → Except PyError (List Eff))
    (g : Option Int → Logline → Except PyError (List Eff × Option Int)) :
    callAttempts (Handler.stateless f) sc l = [2, 1] ∧
    invoke (Handler.stateless f) sc l = (f l).map (fun effs => (effs, sc)) ∧
    callAttempts (Handler.stateful g) sc l = [2] ∧
    invoke (Handler.stateful g) sc l = g sc l :=
  ⟨rfl, rfl, rfl, rfl⟩

theorem runHandlers_eq_blocks (hs : List Handler) : ∀ (sc : Option Int) (l : Logline),
    runHandlers hs sc l = (handlerBlocks hs sc l).map (fun p => (p.1.flatten, p.2)) := by
  induction hs with
  | nil => intro sc l; rfl
  | cons h hs ih =>
    intro sc l
    simp only [runHandlers, handlerBlocks, Bind.bind, Except.bind]
    cases invoke h sc l with
    | error e => rfl
    | ok p =>
      obtain ⟨effs, sc'⟩ := p
      dsimp only
      rw [ih sc' l]
      cases handlerBlocks hs sc' l with
      | error e => rfl
      | ok q => simp [Except.map, pure, Except.pure]

theorem run_eq_eventBlocks (reg : Registry) (evs : List Logline) : ∀ sc : Option Int,
    run reg sc evs =
      (eventBlocks reg sc evs).map (fun p => ((p.1.map List.flatten).flatten, p.2)) := by
  induction evs with
  | nil => intro sc; rfl
  | cons l rest ih =>
    intro sc
    simp only [run, eventBlocks, Bind.bind, Except.bind]
    cases getField l.type "type" with
    | error e => rfl
    | ok ty =>
      dsimp only
      rw [runHandlers_eq_blocks]
      cases handlerBlocks (lookupReg reg ty) sc l with
      | error e => rfl
      | ok p =>
        obtain ⟨bs, sc'⟩ := p
        dsimp only [Except.map]
        rw [ih sc']
        cases eventBlocks reg sc' rest with
        | error e => rfl
        | ok q => simp [Except.map, pure, Except.pure]

/-- C5. The pipeline yields effects in the triple order (event position, then
registration order of the matching handlers, then the handler's own emission
order): the run's output is the double flattening of the per-event, per-handler
effect blocks. In particular a handler registered twice for the same type is
invoked twice per matching event, in registration order: with
`T_handler_stateful` registered twice for `'T'`, one `T` event with `amt = 0`
from counter `0` yields two effects, the second produced by the second
invocation, which already sees the counter incremented by the first. -/
theorem run_triple_order :
    (∀ (reg : Registry) (sc : Option Int) (evs : List Logline),
      run reg sc evs =
        (eventBlocks reg sc evs).map (fun p => ((p.1.map List.flatten).flatten, p.2))) ∧
    run [("T", [Handler.stateful T_handler_stateful, Handler.stateful T_handler_stateful])]
        (some 0) [mkT ⟨"test", 0, 1, 1⟩] =
      Except.ok ([Eff.mk "test" 0 1 1, Eff.mk "test" 1 1 1], some 2) :=
  ⟨fun reg sc evs => run_eq_eventBlocks reg evs sc, rfl⟩

theorem lookupReg_real_T :
    lookupReg realRegistry "T" = [Handler.stateful T_handler_stateful] := rfl

theorem lookupReg_real_buy :
    lookupReg realRegistry "buy" = [Handler.stateless txn_handler_stateless] := rfl

theorem lookupReg_real_sell :
    lookupReg realRegistry "sell" = [Handler.stateless txn_handler_stateless] := rfl

theorem run_append (reg : Registry) (evs1 evs2 : List Logline) : ∀ sc : Option Int,
    run reg sc (evs1 ++ evs2) =
      Except.bind (run reg sc evs1) (fun p =>
        Except.bind (run reg p.2 evs2) (fun q => Except.ok (p.1 ++ q.1, q.2))) := by
  induction evs1 with
  | nil =>
    intro sc
    show run reg sc evs2 = _
    rw [show run reg sc [] = Except.ok ([], sc) from rfl]
    dsimp only [Except.bind]
    cases run reg sc evs2 with
    | error e => rfl
    | ok q => rfl
  | cons l rest ih =>
    intro sc
    cases hty : getField l.type "type" with
    | error e => simp [run, List.cons_append, hty, Bind.bind, Except.bind]
    | ok ty =>
      cases hh : runHandlers (lookupReg reg ty) sc l with
      | error e => simp [run, List.cons_append, hty, hh, Bind.bind, Except.bind]
      | ok p =>
        simp only [run, List.cons_append, hty, hh, Bind.bind, Except.bind, List.append_eq,
          pure, Except.pure]
        rw [ih p.2]
        cases run reg p.2 rest with
        | error e => rfl
        | ok q =>
          dsimp only [Except.bind, pure, Except.pure]
          cases run reg q.2 evs2 with
          | error e => rfl
          | ok r => simp

/-- C6. An event lacking the `type` tag fails the run with
`MissingFieldError "type"`; for an event of any registered type (`T`, `buy`,
`sell`), whose matching handler reads the common fields, any
`get_common_fields` error aborts the run with that error — and
`get_common_fields` fails with the `MissingFieldError` of the first absent
field among `ticker`, `amt`, `acct_id`, `ts`, so a missing occurrence of each
of the four required common fields fails the run; and any error raised while
processing an event aborts the whole run (the events before it having been
processed normally), rather than the event being silently skipped. -/
theorem run_missing_field_errors :
    (∀ (reg : Registry) (sc : Option Int) (pre : List Logline) (rest2 : List Logline)
       (effs : List Eff) (sc1 : Option Int) (e : PyError),
      run reg sc pre = Except.ok (effs, sc1) → run reg sc1 rest2 = Except.error e →
      run reg sc (pre ++ rest2) = Except.error e) ∧
    (∀ (reg : Registry) (sc : Option Int) (l : Logline) (rest : List Logline),
      l.type = none →
      run reg sc (l :: rest) = Except.error (PyError.missingField "type")) ∧
    (∀ (sc : Option Int) (l : Logline) (rest : List Logline) (ty : String) (e : PyError),
      (ty = "T" ∨ ty = "buy" ∨ ty = "sell") → l.type = some ty →
      get_common_fields l = Except.error e →
      run realRegistry sc (l :: rest) = Except.error e) ∧
    (∀ l : Logline, l.ticker = none →
      get_common_fields l = Except.error (PyError.missingField "ticker")) ∧
    (∀ (l : Logline) (t : String), l.ticker = some t → l.amt = none →
      get_common_fields l = Except.error (PyError.missingField "amt")) ∧
    (∀ (l : Logline) (t : String) (a : Int), l.ticker = some t → l.amt = some a →
      l.acct_id = none →
      get_common_fields l = Except.error (PyError.missingField "acct_id")) ∧
    (∀ (l : Logline) (t : String) (a b : Int), l.ticker = some t → l.amt = some a →
      l.acct_id = some b → l.ts = none →
      get_common_fields l = Except.error (PyError.missingField "ts")) := by
  refine ⟨?_, ?_, ?_, ?_, ?_, ?_, ?_⟩
  · intro reg sc pre rest2 effs sc1 e h1 h2
    rw [run_append, h1]
    simp [Except.bind, h2]
  · intro reg sc l rest h
    simp [run, getField, h, Bind.bind, Except.bind]
  · intro sc l rest ty e hty h hgcf
    rcases hty with h1 | h1 | h1 <;> subst h1 <;>
      simp [run, getField, h, lookupReg_real_T, lookupReg_real_buy, lookupReg_real_sell,
        runHandlers, invoke, pyCallTwo, pyCallOne, T_handler_stateful,
        txn_handler_stateless, hgcf, Bind.bind, Except.bind, Except.map]
  · intro l htick
    simp [get_common_fields, getField, htick, Bind.bind, Except.bind]
  · intro l t htick hamt
    simp [get_common_fields, getField, htick, hamt, Bind.bind, Except.bind]
  · intro l t a htick hamt hacct
    simp [get_common_fields, getField, htick, hamt, hacct, Bind.bind, Except.bind]
  · intro l t a b htick hamt hacct hts
    simp [get_common_fields, getField, htick, hamt, hacct, hts, Bind.bind, Except.bind]

/-- Witness for C6 at concrete events: a valid `buy` followed by an event
with no `type` fails the whole run after processing the `buy`; an event with
no `type` fails alone; a `T` event with no `ticker`, a `buy` event with no
`amt`, a `sell` event with no `acct_id` and a `T` event with no `ts` each
fail the run with the corresponding `MissingFieldError`; and
`get_common_fields` fails on each of the four fields concretely. -/
theorem run_missing_field_errors_witness :
    (run realRegistry none
        ([{ type := some "buy", ticker := some "GOOG", amt := some 4, acct_id := some 1,
            ts := some 1, price := some 640 }] ++ [({ type := none } : Logline)]) =
      Except.error (PyError.missingField "type")) ∧
    (({ type := none } : Logline).type = none ∧
      run realRegistry none [({ type := none } : Logline)] =
        Except.error (PyError.missingField "type")) ∧
    (run realRegistry none [{ type := some "T" }] =
      Except.error (PyError.missingField "ticker")) ∧
    (run realRegistry none [{ type := some "buy", ticker := some "GOOG" }] =
      Except.error (PyError.missingField "amt")) ∧
    (run realRegistry none [{ type := some "sell", ticker := some "MS", amt := some 4 }] =
      Except.error (PyError.missingField "acct_id")) ∧
    (run realRegistry none
        [{ type := some "T", ticker := some "AAPL", amt := some 5, acct_id := some 1 }] =
      Except.error (PyError.missingField "ts")) ∧
    (get_common_fields { type := some "T" } =
      Except.error (PyError.missingField "ticker")) ∧
    (get_common_fields { ticker := some "X" } =
      Except.error (PyError.missingField "amt")) ∧
    (get_common_fields { ticker := some "X", amt := some 1 } =
      Except.error (PyError.missingField "acct_id")) ∧
    (get_common_fields { ticker := some "X", amt := some 1, acct_id := some 2 } =
      Except.error (PyError.missingField "ts")) :=
  ⟨run_missing_field_errors.1 realRegistry none
      [{ type := some "buy", ticker := some "GOOG", amt := some 4, acct_id := some 1,
         ts := some 1, price := some 640 }] [({ type := none } : Logline)]
      [Eff.mk "GOOG" 4 1 1, Eff.mk "CASH" (-2560) 1 1] none (PyError.missingField "type")
      (by rfl) (by rfl),
   ⟨rfl, run_missing_field_errors.2.1 realRegistry none { type := none } [] rfl⟩,
   run_missing_field_errors.2.2.1 none { type := some "T" } [] "T"
     (PyError.missingField "ticker") (Or.inl rfl) rfl (by rfl),
   run_missing_field_errors.2.2.1 none { type := some "buy", ticker := some "GOOG" } []
     "buy" (PyError.missingField "amt") (Or.inr (Or.inl rfl)) rfl (by rfl),
   run_missing_field_errors.2.2.1 none
     { type := some "sell", ticker := some "MS", amt := some 4 } [] "sell"
     (PyError.missingField "acct_id") (Or.inr (Or.inr rfl)) rfl (by rfl),
   run_missing_field_errors.2.2.1 none
     { type := some "T", ticker := some "AAPL", amt := some 5, acct_id := some 1 } [] "T"
     (PyError.missingField "ts") (Or.inl rfl) rfl (by rfl),
   run_missing_field_errors.2.2.2.1 { type := some "T" } rfl,
   run_missing_field_errors.2.2.2.2.1 { ticker := some "X" } "X" rfl rfl,
   run_missing_field_errors.2.2.2.2.2.1 { ticker := some "X", amt := some 1 } "X" 1
     rfl rfl rfl,
   run_missing_field_errors.2.2.2.2.2.2
     { ticker := some "X", amt := some 1, acct_id := some 2 } "X" 1 2 rfl rfl rfl rfl⟩

theorem memInv_mem0 : MemInv mem0 :=
  ⟨rfl, by intro a h; simp [mem0] at h⟩

theorem memInv_constructAcct (m : Mem) (tc : Int) (argRef : Nat) (hm : MemInv m) :
    MemInv (constructAcct m tc argRef) := by
  obtain ⟨h0, hrefs⟩ := hm
  have hlen : 0 < m.dicts.length := by
    cases hd : m.dicts with
    | nil => rw [hd] at h0; simp at h0
    | cons d rest => simp [hd]
  constructor
  · show (m.dicts ++ [_]).get? 0 = some []
    rw [List.get?_append hlen]
    exact h0
  · intro a ha
    simp only [constructAcct, List.mem_append, List.mem_singleton] at ha
    rcases ha with ha | ha
    · exact hrefs a ha
    · subst ha; exact hlen

theorem memInv_step (m : Mem) (op : AcctOp) (hm : MemInv m) : MemInv (stepOp m op) := by
  obtain ⟨h0, hrefs⟩ := hm
  cases op with
  | constructDefault => exact memInv_constructAcct m 0 0 ⟨h0, hrefs⟩
  | construct tc ps =>
    refine memInv_constructAcct ⟨m.dicts ++ [ps], m.accts⟩ tc m.dicts.length ?_
    have hlen : 0 < m.dicts.length := by
      cases hd : m.dicts with
      | nil => rw [hd] at h0; simp at h0
      | cons d rest => simp [hd]
    exact ⟨by rw [show (⟨m.dicts ++ [ps], m.accts⟩ : Mem).dicts.get? 0 =
        (m.dicts ++ [ps]).get? 0 from rfl, List.get?_append hlen]; exact h0, hrefs⟩
  | mutate i k a =>
    simp only [stepOp]
    cases hacct : m.accts.get? i with
    | none => exact ⟨h0, hrefs⟩
    | some acct =>
      have hne : acct.posnsRef ≠ 0 := by
        have := hrefs acct (List.get?_mem hacct)
        omega
      exact ⟨by rw [show (⟨m.dicts.set acct.posnsRef _, m.accts⟩ : Mem).dicts.get? 0 =
          (m.dicts.set acct.posnsRef _).get? 0 from rfl, List.get?_set_ne _ _ hne]; exact h0,
        hrefs⟩

theorem memInv_execOps (ops : List AcctOp) : MemInv (execOps ops) := by
  suffices h : ∀ (m : Mem), MemInv m → MemInv (ops.foldl stepOp m) from h mem0 memInv_mem0
  induction ops with
  | nil => intro m hm; exact hm
  | cons op rest ih => intro m hm; exact ih (stepOp m op) (memInv_step m op hm)

/-- C9. After any sequence of operations — constructions with or without
arguments and in-place mutations of previously constructed instances' `posns`
— a zero-argument `AccountState()` construction still yields an instance with
`T_count = 0` and an empty `posns` dict (so every key reads `0`), allocated at
a fresh heap reference distinct from the shared default-argument dict: the
default argument is never mutated and never shared. -/
theorem accountState_default_fresh (ops : List AcctOp) :
    (stepOp (execOps ops) AcctOp.constructDefault).accts.getLast? =
      some ⟨0, (execOps ops).dicts.length⟩ ∧
    (execOps ops).dicts.length ≠ 0 ∧
    (stepOp (execOps ops) AcctOp.constructDefault).dicts.get?
        (execOps ops).dicts.length = some [] ∧
    ∀ k : String, dictLookup [] k = 0 := by
  obtain ⟨h0, hrefs⟩ := memInv_execOps ops
  have hlen : 0 < (execOps ops).dicts.length := by
    cases hd : (execOps ops).dicts with
    | nil => rw [hd] at h0; simp at h0
    | cons d rest => simp [hd]
  have hcontents : (execOps ops).dicts.getD 0 [] = [] := by
    have h0g : (execOps ops).dicts[0]? = some [] := by
      rw [← List.get?_eq_getElem?]; exact h0
    simp [List.getD, h0g]
  refine ⟨?_, by omega, ?_, fun k => rfl⟩
  · show ((execOps ops).accts ++ [_]).getLast? = _
    rw [List.getLast?_concat]
  · show ((execOps ops).dicts ++ [dictUpdate [] ((execOps ops).dicts.getD 0 [])]).get? _ = _
    rw [hcontents, List.get?_concat_length]
    rfl

end EtlGist
